import Mathlib

/-!
Verification development for the LPC17xx SPI driver
(src/drivers/spi/spi_lpc17xx.c).

The driver's pure and stateful operations are shallowly embedded:
machine words are natural numbers with 32-bit masking made explicit,
hardware register reads are consumed from oracle lists (one entry per
read the busy-wait code performs), and hardware side effects are
recorded in an explicit action trace.  External collaborators that are
not part of the source file (the generic spi_context helper library and
the operation-word accessors of the OS SPI header) are modelled from
the specification, as noted on each such definition.
-/

/-- Register offsets from the peripheral base address (enum reg_offset). -/
def SPI_CR0_OFFSET : Nat := 0x00

/-- Control register 1 offset. -/
def SPI_CR1_OFFSET : Nat := 0x04

/-- Data register offset. -/
def SPI_DR_OFFSET : Nat := 0x08

/-- Status register offset. -/
def SPI_SR_OFFSET : Nat := 0x0C

/-- Clock prescale register offset. -/
def SPI_CPSR_OFFSET : Nat := 0x10

/-- Bitwise complement on 32-bit words, written as xor with the all-ones
word so that it stays inside Nat. -/
def compl32 (x : Nat) : Nat := (2 ^ 32 - 1) ^^^ x

/-- sys_set_bits: read-modify-write of a bitfield, clearing mask<<shift
and or-ing in (data & mask) << shift. -/
def sys_set_bits (v mask shift data : Nat) : Nat :=
  (v &&& compl32 (mask <<< shift)) ||| ((data &&& mask) <<< shift)

/-- sys_set_bit: set a single bit. -/
def sys_set_bit (v n : Nat) : Nat := v ||| (1 <<< n)

/-- sys_clear_bit: clear a single bit. -/
def sys_clear_bit (v n : Nat) : Nat := v &&& compl32 (1 <<< n)

/-- sys_test_bit: test a single bit. -/
def sys_test_bit (v n : Nat) : Bool := v.testBit n

/-- The cached register image: spi_config_regs {cr0, cr1, cpsr}. -/
structure SpiConfigRegs where
  cr0 : Nat
  cr1 : Nat
  cpsr : Nat
deriving DecidableEq, Repr

/-- The two register-image writes that set_frequency performs when it
selects the pair (i, j): prescaler i into the low byte of cpsr and
serial clock rate j - 1 into bits 8..15 of cr0. -/
def writePair (regs : SpiConfigRegs) (i j : Nat) : SpiConfigRegs :=
  { regs with cpsr := sys_set_bits regs.cpsr 0xFF 0 i,
              cr0 := sys_set_bits regs.cr0 0xFF 8 (j - 1) }

/-- The fallback writes of set_frequency: prescaler 254, rate 255. -/
def fallbackRegs (regs : SpiConfigRegs) : SpiConfigRegs :=
  { regs with cpsr := sys_set_bits regs.cpsr 0xFF 0 254,
              cr0 := sys_set_bits regs.cr0 0xFF 8 255 }

/-- Inner loop of set_frequency: for fixed prescaler i, scan the serial
clock rate index j upward while j < 256; on the first j with
freq >= pclk / (i * j) perform the two register-image writes. -/
def set_frequency_j (pclk freq i j : Nat) (regs : SpiConfigRegs) :
    Option SpiConfigRegs :=
  if h : j < 256 then
    if freq ≥ pclk / (i * j) then some (writePair regs i j)
    else set_frequency_j pclk freq i (j + 1) regs
  else none
termination_by 256 - j
decreasing_by simp_wf; omega

/-- Outer loop of set_frequency: prescaler i over even values while
i <= 254, stepping by 2; the first prescaler whose inner scan succeeds
wins. -/
def set_frequency_i (pclk freq i : Nat) (regs : SpiConfigRegs) :
    Option SpiConfigRegs :=
  if h : i ≤ 254 then
    match set_frequency_j pclk freq i 1 regs with
    | some r => some r
    | none => set_frequency_i pclk freq (i + 2) regs
  else none
termination_by 255 - i
decreasing_by simp_wf; omega

/-- set_frequency: run the double loop from i = 2; if no pair in range
satisfies the inequality, fall back to prescaler 254 and rate 255.
pclk stands for the compile-time constant SPI_PCLK. -/
def set_frequency (pclk freq : Nat) (regs : SpiConfigRegs) : SpiConfigRegs :=
  match set_frequency_i pclk freq 2 regs with
  | some r => r
  | none => fallbackRegs regs

/-- A pair (i, j) visited by the search: i even in 2..254, j in 1..255. -/
def validPair (i j : Nat) : Prop :=
  2 ≤ i ∧ i ≤ 254 ∧ i % 2 = 0 ∧ 1 ≤ j ∧ j ≤ 255

instance (i j : Nat) : Decidable (validPair i j) := by
  unfold validPair; infer_instance

theorem inner_eq_some (pclk freq i : Nat) (regs : SpiConfigRegs) :
    ∀ n j j0, j0 - j = n → j ≤ j0 → j0 ≤ 255 →
      freq ≥ pclk / (i * j0) →
      (∀ jm, j ≤ jm → jm < j0 → ¬ freq ≥ pclk / (i * jm)) →
      set_frequency_j pclk freq i j regs = some (writePair regs i j0) := by
  intro n
  induction n with
  | zero =>
    intro j j0 hn hle _ hsat _
    have hj : j = j0 := by omega
    subst hj
    rw [set_frequency_j]
    rw [dif_pos (by omega : j < 256)]
    rw [if_pos hsat]
  | succ m ih =>
    intro j j0 hn hle hub hsat hmin
    have hlt : j < j0 := by omega
    rw [set_frequency_j]
    rw [dif_pos (by omega : j < 256)]
    rw [if_neg (hmin j le_rfl hlt)]
    exact ih (j + 1) j0 (by omega) (by omega) hub hsat
      (fun jm h1 h2 => hmin jm (by omega) h2)

theorem inner_eq_none (pclk freq i : Nat) (regs : SpiConfigRegs) :
    ∀ n j, 256 - j = n →
      (∀ jm, j ≤ jm → jm ≤ 255 → ¬ freq ≥ pclk / (i * jm)) →
      set_frequency_j pclk freq i j regs = none := by
  intro n
  induction n with
  | zero =>
    intro j hn _
    rw [set_frequency_j]
    rw [dif_neg (by omega : ¬ j < 256)]
  | succ m ih =>
    intro j hn hmin
    rw [set_frequency_j]
    by_cases hj : j < 256
    · rw [dif_pos hj]
      rw [if_neg (hmin j le_rfl (by omega))]
      exact ih (j + 1) (by omega) (fun jm h1 h2 => hmin jm (by omega) h2)
    · rw [dif_neg hj]

theorem outer_eq_some (pclk freq : Nat) (regs : SpiConfigRegs) :
    ∀ n i i0 j0, i0 - i = n → i ≤ i0 → i0 ≤ 254 → i % 2 = 0 → i0 % 2 = 0 →
      1 ≤ j0 → j0 ≤ 255 → freq ≥ pclk / (i0 * j0) →
      (∀ jm, 1 ≤ jm → jm < j0 → ¬ freq ≥ pclk / (i0 * jm)) →
      (∀ im jm, i ≤ im → im < i0 → im % 2 = 0 → 1 ≤ jm → jm ≤ 255 →
        ¬ freq ≥ pclk / (im * jm)) →
      set_frequency_i pclk freq i regs = some (writePair regs i0 j0) := by
  intro n
  induction n using Nat.strong_induction_on with
  | _ n ih =>
    intro i i0 j0 hn hle hub hev hev0 hj1 hj2 hsat hjmin himin
    rw [set_frequency_i]
    rw [dif_pos (by omega : i ≤ 254)]
    by_cases hi : i = i0
    · subst hi
      rw [inner_eq_some pclk freq i regs (j0 - 1) 1 j0 rfl hj1 hj2 hsat
        (fun jm h1 h2 => hjmin jm h1 h2)]
    · have hlt : i < i0 := by omega
      rw [inner_eq_none pclk freq i regs (256 - 1) 1 rfl
        (fun jm h1 h2 => himin i jm le_rfl hlt hev h1 h2)]
      exact ih (i0 - (i + 2)) (by omega) (i + 2) i0 j0 rfl (by omega) hub
        (by omega) hev0 hj1 hj2 hsat hjmin
        (fun im jm h1 h2 h3 h4 h5 => himin im jm (by omega) h2 h3 h4 h5)

theorem outer_eq_none (pclk freq : Nat) (regs : SpiConfigRegs) :
    ∀ n i, 256 - i = n → i % 2 = 0 →
      (∀ im jm, i ≤ im → im ≤ 254 → im % 2 = 0 → 1 ≤ jm → jm ≤ 255 →
        ¬ freq ≥ pclk / (im * jm)) →
      set_frequency_i pclk freq i regs = none := by
  intro n
  induction n using Nat.strong_induction_on with
  | _ n ih =>
    intro i hn hev hmin
    rw [set_frequency_i]
    by_cases hi : i ≤ 254
    · rw [dif_pos hi]
      rw [inner_eq_none pclk freq i regs (256 - 1) 1 rfl
        (fun jm h1 h2 => hmin i jm le_rfl hi hev h1 h2)]
      exact ih (256 - (i + 2)) (by omega) (i + 2) rfl (by omega)
        (fun im jm h1 h2 h3 h4 h5 => hmin im jm (by omega) h2 h3 h4 h5)
    · rw [dif_neg hi]

theorem set_frequency_first (pclk freq : Nat) (regs : SpiConfigRegs)
    (i j : Nat) (hv : validPair i j) (hsat : freq ≥ pclk / (i * j))
    (hmin : ∀ im, im < 255 → ∀ jm, jm < 256 → validPair im jm →
      freq ≥ pclk / (im * jm) → (i < im ∨ (i = im ∧ j ≤ jm))) :
    set_frequency pclk freq regs = writePair regs i j := by
  obtain ⟨hi2, hi254, hiev, hj1, hj255⟩ := hv
  have houter := outer_eq_some pclk freq regs (i - 2) 2 i j rfl hi2 hi254
    rfl hiev hj1 hj255 hsat
    (fun jm h1 h2 => by
      intro hs
      have := hmin i (by omega) jm (by omega)
        ⟨hi2, hi254, hiev, h1, by omega⟩ hs
      omega)
    (fun im jm h1 h2 h3 h4 h5 => by
      intro hs
      have := hmin im (by omega) jm (by omega)
        ⟨by omega, by omega, h3, h4, h5⟩ hs
      omega)
  unfold set_frequency
  rw [houter]

/-- C1: for every requested frequency, set_frequency selects the
lexicographically first pair in the search order (prescaler i over even
values 2..254 ascending, then index j over 1..255 ascending) such that
freq >= PCLK / (i * j) under integer division, and records prescaler i
and serial clock rate j - 1 in the register image; in particular, for
freq = PCLK it records prescaler 2 and serial clock rate 0. -/
theorem spi_set_frequency_selects_first_pair :
    (∀ pclk freq regs i j, validPair i j → freq ≥ pclk / (i * j) →
      (∀ im, im < 255 → ∀ jm, jm < 256 → validPair im jm →
        freq ≥ pclk / (im * jm) → (i < im ∨ (i = im ∧ j ≤ jm))) →
      set_frequency pclk freq regs = writePair regs i j)
    ∧ (∀ pclk regs, set_frequency pclk pclk regs =
        { regs with cpsr := sys_set_bits regs.cpsr 0xFF 0 2,
                    cr0 := sys_set_bits regs.cr0 0xFF 8 0 }) := by
  constructor
  · intro pclk freq regs i j hv hsat hmin
    exact set_frequency_first pclk freq regs i j hv hsat hmin
  · intro pclk regs
    have h := set_frequency_first pclk pclk regs 2 1 (by decide)
      (by simpa using Nat.div_le_self pclk 2)
      (fun im _ jm _ hvm _ => by
        obtain ⟨h2, _, _, h1, _⟩ := hvm
        omega)
    simpa [writePair] using h

theorem spi_set_frequency_selects_first_pair_witness :
    set_frequency 100 100 ⟨0, 0, 0⟩ = writePair ⟨0, 0, 0⟩ 2 1 :=
  spi_set_frequency_selects_first_pair.1 100 100 ⟨0, 0, 0⟩ 2 1 (by decide)
    (by decide)
    (fun im _ jm _ hvm _ => by
      obtain ⟨h2, _, _, h1, _⟩ := hvm
      omega)

/-- C2: when no pair (i even in 2..254, j in 1..255) satisfies
freq >= PCLK / (i * j), set_frequency falls back to prescaler 254 and
serial clock rate 255; a requested frequency of 0 takes this fallback
whenever PCLK is at least 254 * 255 (the spec's testable property
solve(1) = fallback states that the slowest achievable clock is above
1 Hz, which is exactly this bound on the external compile-time
constant). -/
theorem spi_set_frequency_fallback :
    (∀ pclk freq regs,
      (∀ im, im < 255 → ∀ jm, jm < 256 → validPair im jm →
        ¬ freq ≥ pclk / (im * jm)) →
      set_frequency pclk freq regs = fallbackRegs regs)
    ∧ (∀ pclk regs, 254 * 255 ≤ pclk →
      set_frequency pclk 0 regs = fallbackRegs regs) := by
  have part1 : ∀ pclk freq regs,
      (∀ im, im < 255 → ∀ jm, jm < 256 → validPair im jm →
        ¬ freq ≥ pclk / (im * jm)) →
      set_frequency pclk freq regs = fallbackRegs regs := by
    intro pclk freq regs hmin
    unfold set_frequency
    rw [outer_eq_none pclk freq regs (256 - 2) 2 rfl rfl
      (fun im jm h1 h2 h3 h4 h5 =>
        hmin im (by omega) jm (by omega) ⟨h1, h2, h3, h4, h5⟩)]
  refine ⟨part1, ?_⟩
  intro pclk regs hbig
  apply part1
  intro im _ jm _ hvm
  obtain ⟨h2, h254, _, h1, h255⟩ := hvm
  intro hs
  have hprod : im * jm ≤ 254 * 255 := Nat.mul_le_mul h254 h255
  have hpos : 0 < im * jm := Nat.mul_pos (by omega) (by omega)
  have hq : 0 < pclk / (im * jm) := Nat.div_pos (by omega) hpos
  omega

theorem spi_set_frequency_fallback_witness :
    set_frequency 3000000 0 ⟨0, 0, 0⟩ = fallbackRegs ⟨0, 0, 0⟩ :=
  spi_set_frequency_fallback.2 3000000 ⟨0, 0, 0⟩ (by decide)

theorem inner_shape (pclk freq i : Nat) (regs : SpiConfigRegs) :
    ∀ n j r, 256 - j = n → set_frequency_j pclk freq i j regs = some r →
      ∃ jj, r = writePair regs i jj := by
  intro n
  induction n with
  | zero =>
    intro j r hn heq
    rw [set_frequency_j, dif_neg (by omega : ¬ j < 256)] at heq
    exact absurd heq (by simp)
  | succ m ih =>
    intro j r hn heq
    rw [set_frequency_j] at heq
    by_cases hj : j < 256
    · rw [dif_pos hj] at heq
      by_cases hs : freq ≥ pclk / (i * j)
      · rw [if_pos hs] at heq
        injection heq with h
        exact ⟨j, h.symm⟩
      · rw [if_neg hs] at heq
        exact ih (j + 1) r (by omega) heq
    · rw [dif_neg hj] at heq
      exact absurd heq (by simp)

theorem outer_shape (pclk freq : Nat) (regs : SpiConfigRegs) :
    ∀ n i r, 256 - i = n → set_frequency_i pclk freq i regs = some r →
      ∃ a b, r = writePair regs a b := by
  intro n
  induction n using Nat.strong_induction_on with
  | _ n ih =>
    intro i r hn heq
    rw [set_frequency_i] at heq
    by_cases hi : i ≤ 254
    · rw [dif_pos hi] at heq
      cases hj : set_frequency_j pclk freq i 1 regs with
      | some r2 =>
        rw [hj] at heq
        obtain ⟨jj, hjj⟩ := inner_shape pclk freq i regs (256 - 1) 1 r2 rfl hj
        injection heq with h
        exact ⟨i, jj, by rw [← h, hjj]⟩
      | none =>
        rw [hj] at heq
        exact ih (256 - (i + 2)) (by omega) (i + 2) r rfl heq
    · rw [dif_neg hi] at heq
      exact absurd heq (by simp)

theorem set_frequency_shape (pclk freq : Nat) (regs : SpiConfigRegs) :
    ∃ a b, set_frequency pclk freq regs = writePair regs a b := by
  unfold set_frequency
  cases heq : set_frequency_i pclk freq 2 regs with
  | some r =>
    obtain ⟨a, b, hab⟩ := outer_shape pclk freq regs (256 - 2) 2 r rfl heq
    exact ⟨a, b, hab⟩
  | none => exact ⟨254, 256, rfl⟩

theorem set_bits_hi_preserves_bit0 (c w : Nat) :
    (sys_set_bits c 0xFF 8 w).testBit 0 = c.testBit 0 := by
  unfold sys_set_bits compl32
  simp [Nat.testBit_or, Nat.testBit_and, Nat.testBit_xor, Nat.testBit_shiftLeft,
    Nat.testBit_two_pow_sub_one]

theorem set_bits_low_nibble_bit0 (c : Nat) :
    (sys_set_bits c 0xF 0 0x7).testBit 0 = true := by
  unfold sys_set_bits compl32
  simp [Nat.testBit_or, Nat.testBit_and, Nat.testBit_xor, Nat.testBit_shiftLeft,
    Nat.testBit_two_pow_sub_one, show Nat.testBit 7 0 = true from by decide,
    show Nat.testBit 15 0 = true from by decide]

theorem set_frequency_cr0_bit0 (pclk freq : Nat) (regs : SpiConfigRegs) :
    (set_frequency pclk freq regs).cr0.testBit 0 = regs.cr0.testBit 0 := by
  obtain ⟨a, b, hab⟩ := set_frequency_shape pclk freq regs
  rw [hab]
  exact set_bits_hi_preserves_bit0 regs.cr0 (b - 1)

/-- The error code returned for unsupported configurations (errno's
ENOTSUP); the driver returns its negation. -/
def ENOTSUP : Int := 134

/-- Modelled from the spec: the abstract SpiConfig carried by the OS
spi_config operation word.  The accessor macros SPI_OP_MODE_GET,
SPI_WORD_SIZE_GET and the SPI_MODE_CPOL/CPHA/LOOP flag tests live in
the OS SPI header, outside src/, so the configuration is modelled as
the spec's record {mode, clockPolarity, clockPhase, loopback,
wordSizeBits, frequencyHz}. -/
structure SpiConfig where
  master : Bool
  cpol : Bool
  cpha : Bool
  loopback : Bool
  wordSize : Nat
  frequency : Nat
deriving DecidableEq, Repr

/-- Modelled from the spec: the external Transfer Context collaborator
(spi_context helper library, outside src/): mutual-exclusion lock flag,
the applied configuration, the transmit stream (remaining bytes) and
the receive cursor (byte address, remaining length, and whether a
receive buffer is present or received bytes are discarded). -/
structure Ctx where
  locked : Bool
  cfg : Option SpiConfig
  tx : List Nat
  rxPresent : Bool
  rxAddr : Nat
  rxLen : Nat
deriving DecidableEq, Repr

/-- Observable hardware-facing actions of the driver, in program order. -/
inductive Act where
  | readSr (v : Nat)
  | readDr32 (v : Nat)
  | readDr16 (v : Nat)
  | writeDr (v : Nat)
  | writeReg (off v : Nat)
  | lockAct
  | unlockAct
  | csConfig
  | csControl (b : Bool)
  | buffersSetup
  | enableSSE
deriving DecidableEq, Repr

/-- The driver's run time data: the context and the cached register
image (struct spi_lpc17xx_data). -/
structure DriverData where
  ctx : Ctx
  regs : SpiConfigRegs
deriving DecidableEq, Repr

/-- The zero-initialised static driver data (ctx.config NULL, cached
register image all zero). -/
def initialData : DriverData :=
  { ctx := { locked := false, cfg := none, tx := [], rxPresent := false,
             rxAddr := 0, rxLen := 0 },
    regs := { cr0 := 0, cr1 := 0, cpsr := 0 } }

/-- Modelled from the spec: spi_context_configured, the external
context's configuration-equality check (the new configuration is
observably identical to the already-applied one). -/
def spi_context_configured (c : Ctx) (config : SpiConfig) : Bool :=
  c.cfg = some config

/-- Modelled from the spec: spi_context_lock acquires the context's
mutual-exclusion lock. -/
def spi_context_lock (c : Ctx) : Ctx := { c with locked := true }

/-- Modelled from the spec: spi_context_release releases the lock
unconditionally on every exit path of transceive. -/
def spi_context_release (c : Ctx) : Ctx := { c with locked := false }

/-- Modelled from the spec: spi_context_unlock_unconditionally, the
forced unlock that bypasses lock-ownership checks. -/
def spi_context_unlock_unconditionally (c : Ctx) : Ctx :=
  { c with locked := false }

/-- Modelled from the spec: spi_context_buffers_setup installs the
transmit/receive buffer cursors on the context. -/
def spi_context_buffers_setup (c : Ctx) (tx : List Nat) (rxPresent : Bool)
    (rxAddr rxLen : Nat) : Ctx :=
  { c with tx := tx, rxPresent := rxPresent, rxAddr := rxAddr, rxLen := rxLen }

/-- Modelled from the spec: spi_context_tx_buf_on, true while the
transmit stream still has data. -/
def spi_context_tx_buf_on (c : Ctx) : Bool := !c.tx.isEmpty

/-- Modelled from the spec: spi_context_tx_on, true while the transmit
cursor has remaining work. -/
def spi_context_tx_on (c : Ctx) : Bool := !c.tx.isEmpty

/-- Modelled from the spec: spi_context_rx_buf_on, true while a receive
buffer is present and has remaining room. -/
def spi_context_rx_buf_on (c : Ctx) : Bool := c.rxPresent && decide (0 < c.rxLen)

/-- Modelled from the spec: spi_context_rx_on, true while the receive
cursor has remaining work. -/
def spi_context_rx_on (c : Ctx) : Bool := decide (0 < c.rxLen)

/-- Modelled from the spec: spi_context_update_tx advances the transmit
cursor by one byte. -/
def spi_context_update_tx (c : Ctx) : Ctx := { c with tx := c.tx.drop 1 }

/-- Modelled from the spec: spi_context_update_rx advances the receive
cursor by one byte. -/
def spi_context_update_rx (c : Ctx) : Ctx :=
  { c with rxAddr := c.rxAddr + 1, rxLen := c.rxLen - 1 }

/-- The register image built by spi_lpc17xx_configure before the
frequency is applied: clear the master/slave bit, set frame format to
SPI, set CPOL/CPHA/loopback per flags, set the 8-bits-per-transfer
field.  In the source the partial image is built before the word-size
check; the build is pure (it touches only the stack-local struct), so
it is factored out here and configure performs its checks first. -/
def build_config_regs (config : SpiConfig) : SpiConfigRegs :=
  let r1 : SpiConfigRegs := { cr0 := 0, cr1 := 0, cpsr := 0 }
  let r2 := { r1 with cr1 := sys_clear_bit r1.cr1 2 }
  let r3 := { r2 with cr0 := sys_set_bits r2.cr0 0x3 4 0x0 }
  let r4 := if config.cpol then { r3 with cr0 := sys_set_bit r3.cr0 6 } else r3
  let r5 := if config.cpha then { r4 with cr0 := sys_set_bit r4.cr0 7 } else r4
  let r6 := if config.loopback then { r5 with cr1 := sys_set_bit r5.cr1 0 } else r5
  { r6 with cr0 := sys_set_bits r6.cr0 0xF 0 0x7 }

/-- spi_lpc17xx_configure: fast path when the context reports the
configuration already applied; -ENOTSUP for slave mode or a word size
other than 8; otherwise build the fresh register image, apply the
frequency, and write cr0/cr1/cpsr to hardware and update the cache only
when the image differs from the cached one (memcmp); finally record the
configuration on the context and reconfigure chip-select. -/
def spi_lpc17xx_configure (pclk : Nat) (d : DriverData) (config : SpiConfig) :
    Int × DriverData × List Act :=
  if spi_context_configured d.ctx config then (0, d, [])
  else if config.master = false then (-ENOTSUP, d, [])
  else if config.wordSize ≠ 8 then (-ENOTSUP, d, [])
  else
    let regs := set_frequency pclk config.frequency (build_config_regs config)
    if regs ≠ d.regs then
      (0, { d with regs := regs, ctx := { d.ctx with cfg := some config } },
       [Act.writeReg SPI_CR0_OFFSET regs.cr0, Act.writeReg SPI_CR1_OFFSET regs.cr1,
        Act.writeReg SPI_CPSR_OFFSET regs.cpsr, Act.csConfig])
    else (0, { d with ctx := { d.ctx with cfg := some config } }, [Act.csConfig])

/-- Hardware register writes in a trace (raw register writes, data
register writes, and the read-modify-write that sets the enable bit). -/
def isHwWrite : Act → Bool
  | .writeReg _ _ => true
  | .writeDr _ => true
  | .enableSSE => true
  | _ => false

/-- The offsets of the raw register writes in a trace, in order. -/
def regWriteOffs (t : List Act) : List Nat :=
  t.filterMap fun a => match a with
    | .writeReg off _ => some off
    | _ => none

theorem build_config_regs_cr0_bit0 (config : SpiConfig) :
    (build_config_regs config).cr0.testBit 0 = true :=
  set_bits_low_nibble_bit0 _

theorem config_image_ne_zero (pclk : Nat) (config : SpiConfig) :
    set_frequency pclk config.frequency (build_config_regs config) ≠
      ({ cr0 := 0, cr1 := 0, cpsr := 0 } : SpiConfigRegs) := by
  intro h
  have hb : (set_frequency pclk config.frequency
      (build_config_regs config)).cr0.testBit 0 = true := by
    rw [set_frequency_cr0_bit0]
    exact build_config_regs_cr0_bit0 config
  rw [h] at hb
  simp at hb

/-- The run of configure on the freshly initialised driver data with a
valid configuration: success, cache update, and the three register
writes followed by the chip-select reconfiguration. -/
theorem configure_fresh_run (pclk : Nat) (config : SpiConfig)
    (h1 : config.master = true) (h2 : config.wordSize = 8) :
    spi_lpc17xx_configure pclk initialData config =
      (0, { ctx := { locked := false, cfg := some config, tx := [],
                     rxPresent := false, rxAddr := 0, rxLen := 0 },
            regs := set_frequency pclk config.frequency (build_config_regs config) },
       [Act.writeReg SPI_CR0_OFFSET
          (set_frequency pclk config.frequency (build_config_regs config)).cr0,
        Act.writeReg SPI_CR1_OFFSET
          (set_frequency pclk config.frequency (build_config_regs config)).cr1,
        Act.writeReg SPI_CPSR_OFFSET
          (set_frequency pclk config.frequency (build_config_regs config)).cpsr,
        Act.csConfig]) := by
  have hne := config_image_ne_zero pclk config
  unfold spi_lpc17xx_configure
  rw [if_neg (by simp [spi_context_configured, initialData])]
  rw [if_neg (by simp [h1])]
  rw [if_neg (by simp [h2])]
  rw [if_pos (by simpa [initialData] using hne)]
  simp [initialData]

/-- C3: configure is idempotent with respect to hardware register
writes: from the freshly initialised driver data, a first call with a
valid configuration (master mode, 8-bit words) succeeds and performs
exactly three hardware register writes, to control0, control1 and
prescale, and a second call with the same configuration takes the
already-configured fast path, returning success with zero hardware
register writes. -/
theorem configure_idempotent_writes (pclk : Nat) (config : SpiConfig)
    (h1 : config.master = true) (h2 : config.wordSize = 8) :
    ∀ e d1 t1, spi_lpc17xx_configure pclk initialData config = (e, d1, t1) →
      e = 0 ∧
      regWriteOffs t1 = [SPI_CR0_OFFSET, SPI_CR1_OFFSET, SPI_CPSR_OFFSET] ∧
      (t1.filter isHwWrite).length = 3 ∧
      spi_lpc17xx_configure pclk d1 config = (0, d1, []) := by
  intro e d1 t1 heq
  rw [configure_fresh_run pclk config h1 h2] at heq
  injection heq with he hrest
  injection hrest with hd ht
  refine ⟨he.symm, ?_, ?_, ?_⟩
  · rw [← ht]
    simp [regWriteOffs]
  · rw [← ht]
    simp [isHwWrite]
  · rw [← hd]
    simp [spi_lpc17xx_configure, spi_context_configured]

theorem configure_idempotent_writes_witness :
    (0 : Int) = 0 ∧
    regWriteOffs [Act.writeReg SPI_CR0_OFFSET 7, Act.writeReg SPI_CR1_OFFSET 0,
      Act.writeReg SPI_CPSR_OFFSET 2, Act.csConfig] =
      [SPI_CR0_OFFSET, SPI_CR1_OFFSET, SPI_CPSR_OFFSET] ∧
    ([Act.writeReg SPI_CR0_OFFSET 7, Act.writeReg SPI_CR1_OFFSET 0,
      Act.writeReg SPI_CPSR_OFFSET 2, Act.csConfig].filter isHwWrite).length = 3 ∧
    spi_lpc17xx_configure 3000000
      { ctx := { locked := false, cfg := some ⟨true, false, false, false, 8, 3000000⟩,
                 tx := [], rxPresent := false, rxAddr := 0, rxLen := 0 },
        regs := { cr0 := 7, cr1 := 0, cpsr := 2 } }
      ⟨true, false, false, false, 8, 3000000⟩ =
      (0, { ctx := { locked := false, cfg := some ⟨true, false, false, false, 8, 3000000⟩,
                     tx := [], rxPresent := false, rxAddr := 0, rxLen := 0 },
            regs := { cr0 := 7, cr1 := 0, cpsr := 2 } }, []) :=
  configure_idempotent_writes 3000000 ⟨true, false, false, false, 8, 3000000⟩
    rfl rfl 0
    { ctx := { locked := false, cfg := some ⟨true, false, false, false, 8, 3000000⟩,
               tx := [], rxPresent := false, rxAddr := 0, rxLen := 0 },
      regs := { cr0 := 7, cr1 := 0, cpsr := 2 } }
    [Act.writeReg SPI_CR0_OFFSET 7, Act.writeReg SPI_CR1_OFFSET 0,
     Act.writeReg SPI_CPSR_OFFSET 2, Act.csConfig]
    (by
      have hsf : set_frequency 3000000 3000000
          (build_config_regs ⟨true, false, false, false, 8, 3000000⟩) =
          { cr0 := 7, cr1 := 0, cpsr := 2 } := by
        rw [set_frequency_first 3000000 3000000 _ 2 1 (by decide) (by decide)
          (fun im _ jm _ hvm _ => by
            obtain ⟨ha, hb, hc, hd, he⟩ := hvm
            omega)]
        decide
      rw [configure_fresh_run 3000000 ⟨true, false, false, false, 8, 3000000⟩ rfl rfl]
      rw [hsf])

/-- C4: for a word size other than 8 bits and a not-already-configured
context, configure fails with the unsupported-word-size error code
(-ENOTSUP) and performs zero hardware register writes, leaving the
driver data (including the cached register image) unchanged. -/
theorem configure_wordsize_error_atomic (pclk : Nat) (d : DriverData)
    (config : SpiConfig)
    (h1 : spi_context_configured d.ctx config = false)
    (h2 : config.wordSize ≠ 8) :
    spi_lpc17xx_configure pclk d config = (-ENOTSUP, d, []) := by
  simp [spi_lpc17xx_configure, h1, h2]

theorem configure_wordsize_error_atomic_witness :
    spi_lpc17xx_configure 3000000 initialData
      ⟨true, false, false, false, 16, 1000⟩ = (-ENOTSUP, initialData, []) :=
  configure_wordsize_error_atomic 3000000 initialData
    ⟨true, false, false, false, 16, 1000⟩ (by decide) (by decide)

/-- Byte-addressed memory holding the receive buffer. -/
def ByteMem : Type := Nat → Nat

/-- Modelled from the spec: UNALIGNED_PUT through a byte-sized pointer
stores one byte at the receive cursor position (the spec's pull step
stores each received byte at the next receive cursor position); a
16-bit value is therefore truncated to its low 8 bits. -/
def unaligned_put_byte (m : ByteMem) (addr v : Nat) : ByteMem :=
  fun x => if x = addr then v % 256 else m x

/-- pull_data: while the status register reports RX FIFO not empty
(bit 2), read a 16-bit value from the data register, store it at the
receive cursor if a receive buffer is active (else discard), and
advance the receive cursor.  Status-register reads consume the srs
oracle; data-register reads consume the drs oracle; none means the
oracle ran out while the loop still polled. -/
def pull_data : List Nat → List Nat → Ctx → ByteMem →
    Option (List Nat × List Nat × Ctx × ByteMem × List Act)
  | [], _, _, _ => none
  | s :: srest, drs, c, m =>
    if sys_test_bit s 2 then
      match drs with
      | [] => none
      | v :: drest =>
        let m1 := if spi_context_rx_buf_on c then unaligned_put_byte m c.rxAddr v
                  else m
        match pull_data srest drest (spi_context_update_rx c) m1 with
        | none => none
        | some (a, b, c2, m2, t) =>
          some (a, b, c2, m2, Act.readSr s :: Act.readDr16 v :: t)
    else some (srest, drs, c, m, [Act.readSr s])

/-- push_data: if the status register reports TX FIFO not full (bit 1),
re-read the status register and hold if RX FIFO full (bit 3);
otherwise write the next transmit byte (or 0 when the transmit stream
is exhausted) to the data register and advance the transmit cursor. -/
def push_data : List Nat → Ctx → Option (List Nat × Ctx × List Act)
  | [], _ => none
  | s :: rest, c =>
    if sys_test_bit s 1 then
      match rest with
      | [] => none
      | s2 :: rest2 =>
        if sys_test_bit s2 3 then some (rest2, c, [Act.readSr s, Act.readSr s2])
        else
          let v := if spi_context_tx_buf_on c then c.tx.headD 0 else 0
          some (rest2, spi_context_update_tx c,
            [Act.readSr s, Act.readSr s2, Act.writeDr v])
    else some (rest, c, [Act.readSr s])

/-- rx_buffer_flush: read and discard data-register values while the
status register reports RX FIFO not empty (bit 2). -/
def rx_buffer_flush : List Nat → List Nat →
    Option (List Nat × List Nat × List Act)
  | [], _ => none
  | s :: srest, drs =>
    if sys_test_bit s 2 then
      match drs with
      | [] => none
      | v :: drest =>
        match rx_buffer_flush srest drest with
        | none => none
        | some (a, b, t) => some (a, b, Act.readSr s :: Act.readDr32 v :: t)
    else some (srest, drs, [Act.readSr s])

/-- wait_for_sync: busy-wait polling the status register until the busy
flag (bit 4) reads clear; returns the consumed reads and the remaining
oracle, or none when the oracle ran out while still busy. -/
def wait_for_sync : List Nat → Option (List Nat × List Nat)
  | [] => none
  | s :: rest =>
    if sys_test_bit s 4 then
      match wait_for_sync rest with
      | none => none
      | some (consumed, remaining) => some (s :: consumed, remaining)
    else some ([s], rest)

/-- spi_transfer_complete: returns true while the transfer is still in
progress (either cursor reports remaining work); the source name is
kept even though the sense is inverted. -/
def spi_transfer_complete (c : Ctx) : Bool :=
  spi_context_tx_on c || spi_context_rx_on c

/-- The do/while push/pull loop of transceive, with explicit fuel for
the unbounded polling; none means fuel or an oracle ran out. -/
def xfer_loop : Nat → List Nat → List Nat → Ctx → ByteMem →
    Option (List Nat × List Nat × Ctx × ByteMem × List Act)
  | 0, _, _, _, _ => none
  | Nat.succ fuel, srs, drs, c, m =>
    match push_data srs c with
    | none => none
    | some (srs1, c1, t1) =>
      match pull_data srs1 drs c1 m with
      | none => none
      | some (srs2, drs2, c2, m2, t2) =>
        if spi_transfer_complete c2 then
          match xfer_loop fuel srs2 drs2 c2 m2 with
          | none => none
          | some (srs3, drs3, c3, m3, t3) =>
            some (srs3, drs3, c3, m3, t1 ++ t2 ++ t3)
        else some (srs2, drs2, c2, m2, t1 ++ t2)

/-- spi_lpc17xx_transceive: lock the context, wait for a previous
transfer to drain, flush stray receive data, configure (releasing the
lock and returning the error on failure), install the buffer cursors,
assert chip-select, set the SSP enable bit, run the push/pull loop
until both cursors are exhausted, and release the lock. -/
def spi_lpc17xx_transceive (pclk fuel : Nat) (srs drs : List Nat)
    (d : DriverData) (config : SpiConfig) (tx : List Nat) (rxPresent : Bool)
    (rxAddr rxLen : Nat) (m : ByteMem) :
    Option (Int × DriverData × ByteMem × List Act) :=
  let dL := { d with ctx := spi_context_lock d.ctx }
  match wait_for_sync srs with
  | none => none
  | some (syncReads, srs1) =>
    match rx_buffer_flush srs1 drs with
    | none => none
    | some (srs2, drs2, flushActs) =>
      match spi_lpc17xx_configure pclk dL config with
      | (err, d1, cfgActs) =>
        if err ≠ 0 then
          some (err, { d1 with ctx := spi_context_release d1.ctx }, m,
            (Act.lockAct :: (syncReads.map Act.readSr ++ flushActs ++ cfgActs))
              ++ [Act.unlockAct])
        else
          let c1 := spi_context_buffers_setup d1.ctx tx rxPresent rxAddr rxLen
          match xfer_loop fuel srs2 drs2 c1 m with
          | none => none
          | some (_, _, c2, m2, loopActs) =>
            some (0, { d1 with ctx := spi_context_release c2 }, m2,
              (Act.lockAct :: (syncReads.map Act.readSr ++ flushActs ++ cfgActs
                ++ [Act.buffersSetup, Act.csControl true, Act.enableSSE]
                ++ loopActs)) ++ [Act.unlockAct])

/-- spi_lpc17xx_release: wait for the busy flag to clear, then unlock
the context unconditionally and return success. -/
def spi_lpc17xx_release (srs : List Nat) (c : Ctx) :
    Option (Int × Ctx × List Act) :=
  match wait_for_sync srs with
  | none => none
  | some (consumed, _) =>
    some (0, spi_context_unlock_unconditionally c,
      consumed.map Act.readSr ++ [Act.unlockAct])

/-- The data-register writes occurring in a trace. -/
def drWrites (t : List Act) : List Act :=
  t.filter fun a => match a with
    | .writeDr _ => true
    | _ => false

/-- The transfer-setup actions in a trace: buffer-cursor installation,
chip-select control, the SSP enable bit, and data-register writes. -/
def setupActs (t : List Act) : List Act :=
  t.filter fun a => match a with
    | .writeDr _ => true
    | .buffersSetup => true
    | .csControl _ => true
    | .enableSSE => true
    | _ => false

/-- C5: backpressure: whenever the status value sampled by the push
step's RX-FIFO-full check (bit 3) is set, the push step performs no
data-register write and leaves the context (in particular the transmit
cursor) unchanged. -/
theorem push_data_backpressure (s1 s2 : Nat) (rest : List Nat) (c : Ctx)
    (h3 : sys_test_bit s2 3 = true) :
    (push_data (s1 :: s2 :: rest) c).map (fun r => (r.2.1, drWrites r.2.2)) =
      some (c, []) := by
  by_cases h1 : sys_test_bit s1 1
  · simp [push_data, h1, h3, drWrites]
  · simp [push_data, h1, drWrites]

theorem push_data_backpressure_witness :
    (push_data [2, 8] ⟨false, none, [1, 2], true, 0, 2⟩).map
      (fun r => (r.2.1, drWrites r.2.2)) =
      some (⟨false, none, [1, 2], true, 0, 2⟩, []) :=
  push_data_backpressure 2 8 [] ⟨false, none, [1, 2], true, 0, 2⟩ (by decide)

/-- C7 counterexample: with the TX FIFO not full (bit 1 set) and the RX
FIFO not full (bit 3 clear), the push step writes a 0 byte to the data
register even though both the transmit and the receive stream are
already exhausted, refuting the claim that no byte is pushed in that
situation. -/
theorem push_data_pushes_when_both_exhausted :
    spi_context_tx_on ⟨true, none, [], false, 0, 0⟩ = false ∧
    spi_context_rx_on ⟨true, none, [], false, 0, 0⟩ = false ∧
    push_data [2, 0] ⟨true, none, [], false, 0, 0⟩ =
      some ([], ⟨true, none, [], false, 0, 0⟩,
        [Act.readSr 2, Act.readSr 0, Act.writeDr 0]) := by
  decide

/-- C7 amended: when the TX FIFO is not full and the RX FIFO is not
full, the push step always writes a byte to the data register: the
next transmit-buffer byte when the transmit stream has data, and 0
when the transmit stream is exhausted, regardless of the receive
stream (including when both streams are exhausted); the transmit
cursor advances in either case. -/
theorem push_data_value_amended (s1 s2 : Nat) (rest : List Nat) (c : Ctx)
    (h1 : sys_test_bit s1 1 = true) (h3 : sys_test_bit s2 3 = false) :
    push_data (s1 :: s2 :: rest) c =
      some (rest, spi_context_update_tx c,
        [Act.readSr s1, Act.readSr s2, Act.writeDr (c.tx.headD 0)]) ∧
    (c.tx = [] → c.tx.headD 0 = 0) ∧
    (∀ b bs, c.tx = b :: bs → c.tx.headD 0 = b) := by
  refine ⟨?_, ?_, ?_⟩
  · simp only [push_data, h1, h3, if_true, if_false, Bool.false_eq_true]
    cases htx : c.tx with
    | nil => simp [spi_context_tx_buf_on, htx]
    | cons b bs => simp [spi_context_tx_buf_on, htx]
  · intro h; rw [h]; rfl
  · intro b bs h; rw [h]; rfl

theorem push_data_value_amended_witness :
    push_data [2, 0] ⟨false, none, [5, 6], false, 0, 0⟩ =
      some ([], spi_context_update_tx ⟨false, none, [5, 6], false, 0, 0⟩,
        [Act.readSr 2, Act.readSr 0, Act.writeDr 5]) :=
  (push_data_value_amended 2 0 [] ⟨false, none, [5, 6], false, 0, 0⟩
    (by decide) (by decide)).1

/-- C9 counterexample: the pull step stores only the low byte of the
16-bit data-register value: pulling the value 256 into a one-byte
receive buffer over memory initialised to 7 stores byte 0 at the
cursor address and leaves the following byte at 7, while the cursor
advances by one byte; a two-byte store of the full 16-bit value would
have left 1 (the high byte) at the following address. -/
theorem pull_data_not_two_byte_store :
    (pull_data [4, 0] [256] ⟨false, none, [], true, 0, 1⟩ (fun _ => 7)).map
      (fun r => (r.2.2.2.1 0, r.2.2.2.1 1, r.2.2.1.rxAddr)) =
      some (0, 7, 1) := by
  rfl

/-- C9 amended: in the pull step each received byte causes a single
one-byte store: the 16-bit data-register value truncated to its low 8
bits is stored at the receive cursor address, every other memory byte
is unchanged, and the receive cursor advances by one byte. -/
theorem pull_data_single_byte_store (s1 s2 v : Nat) (srest drest : List Nat)
    (c : Ctx) (m : ByteMem)
    (h1 : sys_test_bit s1 2 = true) (h2 : sys_test_bit s2 2 = false)
    (hrx : spi_context_rx_buf_on c = true) :
    pull_data (s1 :: s2 :: srest) (v :: drest) c m =
      some (srest, drest, spi_context_update_rx c,
        unaligned_put_byte m c.rxAddr v,
        [Act.readSr s1, Act.readDr16 v, Act.readSr s2]) ∧
    unaligned_put_byte m c.rxAddr v c.rxAddr = v % 256 ∧
    (∀ x, x ≠ c.rxAddr → unaligned_put_byte m c.rxAddr v x = m x) ∧
    (spi_context_update_rx c).rxAddr = c.rxAddr + 1 := by
  refine ⟨?_, ?_, ?_, ?_⟩
  · simp [pull_data, h1, h2, hrx]
  · simp [unaligned_put_byte]
  · intro x hx; simp [unaligned_put_byte, hx]
  · rfl

theorem pull_data_single_byte_store_witness :
    pull_data [4, 0] [511] ⟨false, none, [], true, 0, 1⟩ (fun _ => 9) =
      some ([], [], spi_context_update_rx ⟨false, none, [], true, 0, 1⟩,
        unaligned_put_byte (fun _ => 9) 0 511,
        [Act.readSr 4, Act.readDr16 511, Act.readSr 0]) ∧
    unaligned_put_byte (fun _ => 9) 0 511 0 = 255 :=
  ⟨(pull_data_single_byte_store 4 0 511 [] [] ⟨false, none, [], true, 0, 1⟩
      (fun _ => 9) (by decide) (by decide) (by decide)).1,
   (pull_data_single_byte_store 4 0 511 [] [] ⟨false, none, [], true, 0, 1⟩
      (fun _ => 9) (by decide) (by decide) (by decide)).2.1⟩

theorem configure_fail_run (pclk : Nat) (d : DriverData) (config : SpiConfig)
    (h1 : spi_context_configured d.ctx config = false)
    (h2 : config.master = false ∨ config.wordSize ≠ 8) :
    spi_lpc17xx_configure pclk d config = (-ENOTSUP, d, []) := by
  rcases h2 with hm | hw
  · simp [spi_lpc17xx_configure, h1, hm]
  · simp [spi_lpc17xx_configure, h1, hw]

theorem setup_map_readSr (l : List Nat) :
    setupActs (l.map Act.readSr) = [] := by
  induction l with
  | nil => rfl
  | cons x xs ih => simp [setupActs, List.filter]

theorem setupActs_append (a b : List Act) :
    setupActs (a ++ b) = setupActs a ++ setupActs b := by
  simp [setupActs, List.filter_append]

theorem flush_no_setup : ∀ srs drs a b t,
    rx_buffer_flush srs drs = some (a, b, t) → setupActs t = [] := by
  intro srs
  induction srs with
  | nil =>
    intro drs a b t h
    simp [rx_buffer_flush] at h
  | cons s srest ih =>
    intro drs a b t h
    by_cases hb : sys_test_bit s 2
    · cases drs with
      | nil => simp [rx_buffer_flush, hb] at h
      | cons v drest =>
        simp only [rx_buffer_flush, hb, if_true] at h
        split at h
        · exact absurd h (by simp)
        · next a2 b2 t2 hrec =>
          simp only [Option.some.injEq, Prod.mk.injEq] at h
          obtain ⟨h1, h2, h3⟩ := h
          rw [← h3]
          simpa [setupActs, List.filter] using ih drest a2 b2 t2 hrec
    · simp only [rx_buffer_flush, hb, Bool.false_eq_true, if_false,
        Option.some.injEq, Prod.mk.injEq] at h
      obtain ⟨h1, h2, h3⟩ := h
      rw [← h3]
      simp [setupActs, List.filter]

theorem wait_for_sync_spec : ∀ srs consumed rest,
    wait_for_sync srs = some (consumed, rest) →
    ∃ pre s, consumed = pre ++ [s] ∧ srs = pre ++ s :: rest ∧
      (∀ x ∈ pre, sys_test_bit x 4 = true) ∧ sys_test_bit s 4 = false := by
  intro srs
  induction srs with
  | nil =>
    intro consumed rest h
    simp [wait_for_sync] at h
  | cons s srest ih =>
    intro consumed rest h
    rw [wait_for_sync] at h
    by_cases hb : sys_test_bit s 4
    · rw [if_pos hb] at h
      cases hrec : wait_for_sync srest with
      | none => rw [hrec] at h; simp at h
      | some p =>
        obtain ⟨c2, r2⟩ := p
        rw [hrec] at h
        simp only [Option.some.injEq, Prod.mk.injEq] at h
        obtain ⟨hc, hr⟩ := h
        obtain ⟨pre, sl, he1, he2, he3, he4⟩ := ih c2 r2 hrec
        refine ⟨s :: pre, sl, ?_, ?_, ?_, he4⟩
        · rw [← hc, he1]; rfl
        · rw [he2, hr, List.cons_append]
        · intro x hx
          rcases List.mem_cons.mp hx with hx1 | hx2
          · rw [hx1]; exact hb
          · exact he3 x hx2
    · rw [if_neg hb] at h
      simp only [Option.some.injEq, Prod.mk.injEq] at h
      obtain ⟨hc, hr⟩ := h
      refine ⟨[], s, by rw [← hc]; rfl, by rw [hr]; rfl, by simp,
        by simpa using hb⟩

theorem setupActs_cons_lock (t : List Act) :
    setupActs (Act.lockAct :: t) = setupActs t := by
  simp [setupActs, List.filter]

theorem transceive_fail_run (pclk fuel : Nat) (srs drs : List Nat)
    (d : DriverData) (config : SpiConfig) (tx : List Nat) (rxp : Bool)
    (rxa rxl : Nat) (m : ByteMem)
    (h1 : spi_context_configured d.ctx config = false)
    (h2 : config.master = false ∨ config.wordSize ≠ 8) :
    ∀ err d2 m2 t,
      spi_lpc17xx_transceive pclk fuel srs drs d config tx rxp rxa rxl m =
        some (err, d2, m2, t) →
      ∃ (syncReads : List Nat) (flushActs : List Act),
        err = -ENOTSUP ∧ m2 = m ∧
        d2 = { d with ctx := { d.ctx with locked := false } } ∧
        t = (Act.lockAct :: (List.map Act.readSr syncReads ++ flushActs))
          ++ [Act.unlockAct] ∧
        setupActs flushActs = [] := by
  intro err d2 m2 t heq
  rw [spi_lpc17xx_transceive] at heq
  cases hsync : wait_for_sync srs with
  | none =>
    simp only [hsync] at heq
    exact Option.noConfusion heq
  | some p =>
    obtain ⟨syncReads, srs1⟩ := p
    simp only [hsync] at heq
    cases hfl : rx_buffer_flush srs1 drs with
    | none =>
      simp only [hfl] at heq
      exact Option.noConfusion heq
    | some q =>
      obtain ⟨srs2, drs2, flushActs⟩ := q
      simp only [hfl] at heq
      rw [configure_fail_run pclk _ config
        (by simpa [spi_context_configured, spi_context_lock] using h1) h2] at heq
      rw [if_pos (by decide : (-ENOTSUP : Int) ≠ 0)] at heq
      injection heq with htup
      injection htup with he hrest
      injection hrest with hd hrest2
      injection hrest2 with hm ht
      refine ⟨syncReads, flushActs, he.symm, hm.symm, ?_, ?_,
        flush_no_setup srs1 drs srs2 drs2 flushActs hfl⟩
      · rw [← hd]; rfl
      · rw [← ht]; simp

/-- C6: when the configuration step of transceive fails (unsupported
mode or word size), transceive releases the lock and returns that
error with no bytes transferred: the trace contains no data-register
write, no buffer-cursor installation, no chip-select assertion and no
enable-bit write, the receive memory is untouched, the context's
buffer cursors are unchanged, and the trace ends with the unlock; in
addition, every completed transceive run, on any path, ends with the
unlock and leaves the lock released. -/
theorem transceive_config_failure_clean :
    (∀ pclk fuel srs drs d config tx rxp rxa rxl m err d2 m2 t,
      spi_context_configured d.ctx config = false →
      (config.master = false ∨ config.wordSize ≠ 8) →
      spi_lpc17xx_transceive pclk fuel srs drs d config tx rxp rxa rxl m =
        some (err, d2, m2, t) →
      err = -ENOTSUP ∧ setupActs t = [] ∧ m2 = m ∧
      d2.ctx.locked = false ∧ d2.ctx.tx = d.ctx.tx ∧
      d2.ctx.rxLen = d.ctx.rxLen ∧
      t.getLast? = some Act.unlockAct)
    ∧ (∀ pclk fuel srs drs d config tx rxp rxa rxl m err d2 m2 t,
      spi_lpc17xx_transceive pclk fuel srs drs d config tx rxp rxa rxl m =
        some (err, d2, m2, t) →
      d2.ctx.locked = false ∧ t.getLast? = some Act.unlockAct) := by
  constructor
  · intro pclk fuel srs drs d config tx rxp rxa rxl m err d2 m2 t h1 h2 heq
    obtain ⟨syncReads, flushActs, he, hm, hd, ht, hfl⟩ :=
      transceive_fail_run pclk fuel srs drs d config tx rxp rxa rxl m h1 h2
        err d2 m2 t heq
    refine ⟨he, ?_, hm, ?_, ?_, ?_, ?_⟩
    · rw [ht, setupActs_append, setupActs_cons_lock, setupActs_append,
        setup_map_readSr, hfl]
      rfl
    · rw [hd]
    · rw [hd]
    · rw [hd]
    · rw [ht]
      simp only [List.getLast?_concat]
  · intro pclk fuel srs drs d config tx rxp rxa rxl m err d2 m2 t heq
    rw [spi_lpc17xx_transceive] at heq
    cases hsync : wait_for_sync srs with
    | none =>
      simp only [hsync] at heq
      exact Option.noConfusion heq
    | some p =>
      obtain ⟨syncReads, srs1⟩ := p
      simp only [hsync] at heq
      cases hfl : rx_buffer_flush srs1 drs with
      | none =>
        simp only [hfl] at heq
        exact Option.noConfusion heq
      | some q =>
        obtain ⟨srs2, drs2, flushActs⟩ := q
        simp only [hfl] at heq
        set cfgres := spi_lpc17xx_configure pclk
          { d with ctx := spi_context_lock d.ctx } config with hcfg
        obtain ⟨err1, d1, cfgActs⟩ := cfgres
        by_cases hz : err1 = 0
        · rw [if_neg (by simp [hz])] at heq
          cases hloop : xfer_loop fuel srs2 drs2
              (spi_context_buffers_setup d1.ctx tx rxp rxa rxl) m with
          | none =>
            simp only [hloop] at heq
            exact Option.noConfusion heq
          | some r =>
            obtain ⟨a2, b2, c2, m3, loopActs⟩ := r
            simp only [hloop] at heq
            injection heq with htup
            injection htup with he hrest
            injection hrest with hd hrest2
            injection hrest2 with hm ht
            constructor
            · rw [← hd]; rfl
            · rw [← ht]
              simp only [List.getLast?_concat]
        · rw [if_pos hz] at heq
          injection heq with htup
          injection htup with he hrest
          injection hrest with hd hrest2
          injection hrest2 with hm ht
          constructor
          · rw [← hd]; rfl
          · rw [← ht]
            simp only [List.getLast?_concat]

theorem transceive_config_failure_clean_witness :
    (-ENOTSUP : Int) = -ENOTSUP ∧
    setupActs [Act.lockAct, Act.readSr 0, Act.readSr 0, Act.unlockAct] = [] ∧
    initialData.ctx.locked = false ∧
    [Act.lockAct, Act.readSr 0, Act.readSr 0,
      Act.unlockAct].getLast? = some Act.unlockAct := by
  have h := transceive_config_failure_clean.1 0 0 [0, 0] [] initialData
    ⟨false, false, false, false, 8, 0⟩ [] false 0 0 (fun _ => 0)
    (-ENOTSUP) initialData (fun _ => 0)
    [Act.lockAct, Act.readSr 0, Act.readSr 0, Act.unlockAct]
    rfl (Or.inl rfl) rfl
  exact ⟨h.1, h.2.1, h.2.2.2.1, h.2.2.2.2.2.2⟩

/-- C8: release first busy-waits until the peripheral busy flag (status
bit 4) reads clear, and only after that unconditionally unlocks the
transfer context (for every context state, regardless of ownership) and
returns success: in every completed run the consumed status reads are a
run of busy values followed by exactly one non-busy value, and the
unlock event comes after them. -/
theorem release_waits_busy_then_unlocks (srs : List Nat) (c : Ctx)
    (err : Int) (c2 : Ctx) (t : List Act)
    (h : spi_lpc17xx_release srs c = some (err, c2, t)) :
    err = 0 ∧ c2 = { c with locked := false } ∧
    ∃ (pre : List Nat) (s : Nat) (post : List Nat),
      srs = pre ++ s :: post ∧
      (∀ x ∈ pre, sys_test_bit x 4 = true) ∧ sys_test_bit s 4 = false ∧
      t = List.map Act.readSr (pre ++ [s]) ++ [Act.unlockAct] := by
  rw [spi_lpc17xx_release] at h
  cases hsync : wait_for_sync srs with
  | none =>
    simp only [hsync] at h
    exact Option.noConfusion h
  | some p =>
    obtain ⟨consumed, rest⟩ := p
    simp only [hsync] at h
    injection h with htup
    injection htup with he hrest
    injection hrest with hc2 ht
    obtain ⟨pre, sl, h1, h2, h3, h4⟩ := wait_for_sync_spec srs consumed rest hsync
    refine ⟨he.symm, ?_, pre, sl, rest, h2, h3, h4, ?_⟩
    · rw [← hc2]; rfl
    · rw [← ht, h1]

theorem release_waits_busy_then_unlocks_witness :
    (0 : Int) = 0 ∧
    ({ locked := false, cfg := none, tx := [], rxPresent := false,
       rxAddr := 0, rxLen := 0 } : Ctx) =
      { (⟨true, none, [], false, 0, 0⟩ : Ctx) with locked := false } := by
  have h := release_waits_busy_then_unlocks [16, 16, 0]
    ⟨true, none, [], false, 0, 0⟩ 0 ⟨false, none, [], false, 0, 0⟩
    [Act.readSr 16, Act.readSr 16, Act.readSr 0, Act.unlockAct] (by decide)
  exact ⟨h.1, h.2.1⟩

/-- C10: the two configuration failure modes are indistinguishable to
the caller: configure returns the identical error code -ENOTSUP both
when the mode is not master and when the word size is not 8 bits, and
transceive propagates that same code; no distinct error values exist
at the public interface. -/
theorem config_errors_single_code :
    (∀ pclk d config, spi_context_configured d.ctx config = false →
      config.master = false →
      (spi_lpc17xx_configure pclk d config).1 = -ENOTSUP) ∧
    (∀ pclk d config, spi_context_configured d.ctx config = false →
      config.master = true → config.wordSize ≠ 8 →
      (spi_lpc17xx_configure pclk d config).1 = -ENOTSUP) ∧
    (∀ pclk fuel srs drs d config tx rxp rxa rxl m err d2 m2 t,
      spi_context_configured d.ctx config = false →
      (config.master = false ∨ config.wordSize ≠ 8) →
      spi_lpc17xx_transceive pclk fuel srs drs d config tx rxp rxa rxl m =
        some (err, d2, m2, t) → err = -ENOTSUP) := by
  refine ⟨?_, ?_, ?_⟩
  · intro pclk d config h1 hm
    rw [configure_fail_run pclk d config h1 (Or.inl hm)]
  · intro pclk d config h1 hm hw
    rw [configure_fail_run pclk d config h1 (Or.inr hw)]
  · intro pclk fuel srs drs d config tx rxp rxa rxl m err d2 m2 t h1 h2 heq
    obtain ⟨_, _, he, _⟩ :=
      transceive_fail_run pclk fuel srs drs d config tx rxp rxa rxl m h1 h2
        err d2 m2 t heq
    exact he

theorem config_errors_single_code_witness :
    (spi_lpc17xx_configure 0 initialData
      ⟨false, false, false, false, 8, 0⟩).1 = -ENOTSUP ∧
    (spi_lpc17xx_configure 0 initialData
      ⟨true, false, false, false, 16, 0⟩).1 = -ENOTSUP :=
  ⟨config_errors_single_code.1 0 initialData
      ⟨false, false, false, false, 8, 0⟩ (by decide) rfl,
   config_errors_single_code.2.1 0 initialData
      ⟨true, false, false, false, 16, 0⟩ (by decide) rfl (by decide)⟩
